import Mathlib

/-!
Verification of the room-booking core (Django app: `bookings`, `rooms`).

The embedding models the conflict-resolution core:

* `Booking` rows (`bookings/models.py`), with dates and times-of-day encoded
  as naturals (Django `DateField`/`TimeField` values are totally ordered and
  the code only compares them, so any linearly ordered encoding is faithful).
* `Room.is_available` (`rooms/models.py` lines 28-53): the read-side
  availability predicate.
* `Booking.clean` (`bookings/models.py` lines 51-75) with its two helper
  scans `_validate_room_availability` / `_validate_user_availability`
  (lines 77-121): the write-side validation, in source order.
* `Booking.save` (lines 123-126) composed with the serializer `create` /
  `update` paths (`bookings/serializers.py` lines 145-183): validate first,
  persist only on success.
* The room-availability bulk filter (`rooms/views.py` lines 39-69 and
  `rooms/filters.py` lines 41-67).
* The declared storage-level constraints (`bookings/models.py` lines 36-41).

The Django ORM store is modelled as a `List Booking`; querysets become list
filters, `.exists()` becomes non-emptiness, `.exclude(pk=...)` a filter on
ids, and `objects.create` / row update / row delete become the obvious list
operations keyed by primary key.
-/

namespace RoomBooking

/-- A stored `Booking` row: primary key, user FK, room FK, date, start and
end time-of-day (`bookings/models.py` fields). -/
structure Booking where
  id : Nat
  userId : Nat
  roomId : Nat
  date : Nat
  startTime : Nat
  endTime : Nat
deriving DecidableEq, Repr

/-- The overlap test used by every queryset in the source:
`start_time__lt=end_time, end_time__gt=start_time`, i.e. the interval
`[s1, e1)` meets `[s2, e2)` iff `s1 < e2 AND e1 > s2`. -/
def overlaps (s1 e1 s2 e2 : Nat) : Bool :=
  decide (s1 < e2) && decide (e1 > s2)

/-- `Booking.objects.filter(room=, date=, start_time__lt=end, end_time__gt=start)`
— the room-keyed overlap queryset shared by `Room.is_available`,
`Booking._validate_room_availability` and
`BookingSerializer._is_room_available`. -/
def roomOverlapQuery (store : List Booking) (roomId date s e : Nat) : List Booking :=
  store.filter fun b =>
    b.roomId == roomId && b.date == date && decide (b.startTime < e) && decide (b.endTime > s)

/-- `Booking.objects.filter(user=, date=, start_time__lt=end, end_time__gt=start)`
— the user-keyed overlap queryset of `Booking._validate_user_availability`
and `BookingSerializer._is_user_available`. -/
def userOverlapQuery (store : List Booking) (userId date s e : Nat) : List Booking :=
  store.filter fun b =>
    b.userId == userId && b.date == date && decide (b.startTime < e) && decide (b.endTime > s)

/-- `.exclude(pk=pk)` on a queryset. -/
def excludePk (q : List Booking) (pk : Nat) : List Booking :=
  q.filter fun b => b.id != pk

/-- `Room.is_available(date, start_time, end_time)` (`rooms/models.py`
lines 28-53): true iff the room-keyed overlap queryset is empty. -/
def is_available (store : List Booking) (roomId date s e : Nat) : Bool :=
  (roomOverlapQuery store roomId date s e).isEmpty

/-- `Booking._validate_room_availability` (`bookings/models.py` lines 77-98)
as a predicate: `true` means the check passes (no exception raised).  When
`pk` is set (an existing booking being updated) the booking's own row is
excluded from the scan. -/
def validate_room_availability (store : List Booking) (roomId date s e : Nat)
    (pk : Option Nat) : Bool :=
  match pk with
  | some p => (excludePk (roomOverlapQuery store roomId date s e) p).isEmpty
  | none => (roomOverlapQuery store roomId date s e).isEmpty

/-- `Booking._validate_user_availability` (`bookings/models.py` lines
100-121) as a predicate: `true` means the check passes. -/
def validate_user_availability (store : List Booking) (userId date s e : Nat)
    (pk : Option Nat) : Bool :=
  match pk with
  | some p => (excludePk (userOverlapQuery store userId date s e) p).isEmpty
  | none => (userOverlapQuery store userId date s e).isEmpty

/-- The validation outcomes of `Booking.clean` / `BookingSerializer.validate`
(spec error taxonomy: `PastDate`, `InvalidInterval`, `RoomConflict`,
`UserConflict`). -/
inductive BookingError where
  | pastDate
  | invalidInterval
  | roomConflict
  | userConflict
deriving DecidableEq, Repr

/-- `Booking.clean` (`bookings/models.py` lines 51-75), in source order:
past date, then inverted interval, then room availability, then user
availability; `.ok ()` means no `ValidationError` was raised.
`today` is `timezone.now().date()`; `pk` is `self.pk` (`none` on create). -/
def clean (store : List Booking) (today userId roomId date s e : Nat)
    (pk : Option Nat) : Except BookingError Unit :=
  if date < today then .error .pastDate
  else if e ≤ s then .error .invalidInterval
  else if !(validate_room_availability store roomId date s e pk) then .error .roomConflict
  else if !(validate_user_availability store userId date s e pk) then .error .userConflict
  else .ok ()

/-- `BookingSerializer.create` (`bookings/serializers.py` lines 145-162):
`Booking.objects.create` runs `Booking.save`, which calls `clean` with
`self.pk = None` and appends the row only if no exception is raised.
Returns the resulting store and the validation error, if any. -/
def submitCreate (store : List Booking) (today : Nat) (b : Booking) :
    List Booking × Option BookingError :=
  match clean store today b.userId b.roomId b.date b.startTime b.endTime none with
  | .error err => (store, some err)
  | .ok _ => (store ++ [b], none)

/-- Persisting an update: the row with `b.id` is replaced by `b`, every
other row is untouched (`super().save()` with a set pk). -/
def applyUpdate (store : List Booking) (b : Booking) : List Booking :=
  store.map fun x => if x.id == b.id then b else x

/-- `BookingSerializer.update` (`bookings/serializers.py` lines 164-183):
attributes are set on the instance and `instance.save()` runs `clean` with
`self.pk` set, persisting only if no exception is raised. -/
def submitUpdate (store : List Booking) (today : Nat) (b : Booking) :
    List Booking × Option BookingError :=
  match clean store today b.userId b.roomId b.date b.startTime b.endTime (some b.id) with
  | .error err => (store, some err)
  | .ok _ => (applyUpdate store b, none)

/-- Deleting a booking by primary key: no validation is run. -/
def deleteBooking (store : List Booking) (bid : Nat) : List Booking :=
  store.filter fun x => x.id != bid

/-- The storage-level row constraints declared in `Booking.Meta.constraints`
(`bookings/models.py` lines 36-41): the single check
`end_time__gt=start_time`.  This is everything the storage layer itself
enforces about a booking row. -/
def satisfiesStorageConstraints (b : Booking) : Bool :=
  decide (b.endTime > b.startTime)

/-- States of the booking store reachable by sequentially executed
validated creates, validated updates, and deletes, starting from the empty
store.  On create the database assigns a fresh primary key. -/
inductive Reachable : List Booking → Prop
  | empty : Reachable []
  | create (store : List Booking) (today : Nat) (b : Booking)
      (h : Reachable store) (hfresh : b.id ∉ store.map Booking.id)
      (hok : (submitCreate store today b).2 = none) :
      Reachable (submitCreate store today b).1
  | update (store : List Booking) (today : Nat) (b : Booking)
      (h : Reachable store)
      (hok : (submitUpdate store today b).2 = none) :
      Reachable (submitUpdate store today b).1
  | delete (store : List Booking) (bid : Nat)
      (h : Reachable store) : Reachable (deleteBooking store bid)

/-- The store invariant of claim C1: primary keys are unique, and no two
distinct rows share a room and a date (or a user and a date) with
overlapping intervals. -/
def StoreInv (store : List Booking) : Prop :=
  (store.map Booking.id).Nodup ∧
  ∀ a ∈ store, ∀ b ∈ store, a ≠ b →
    (a.roomId = b.roomId → a.date = b.date →
      overlaps a.startTime a.endTime b.startTime b.endTime = false) ∧
    (a.userId = b.userId → a.date = b.date →
      overlaps a.startTime a.endTime b.startTime b.endTime = false)

/-- A `Room` row: primary key, floor, capacity (`rooms/models.py`). -/
structure Room where
  id : Nat
  floor : Nat
  capacity : Nat
deriving DecidableEq, Repr

/-- The bulk availability filter of `RoomFilter.filter_availability`
(`rooms/filters.py` lines 41-67) and `RoomViewSet.get_queryset`
(`rooms/views.py` lines 39-69): when all of date, start time and end time
are supplied, collect the ids of the candidate rooms whose
`Room.is_available` is true and keep the rooms whose id is among them
(`queryset.filter(id__in=available_rooms)`); when any parameter is missing,
return the candidate queryset unchanged. -/
def filter_availability (rooms : List Room) (store : List Booking)
    (date s e : Option Nat) : List Room :=
  match date, s, e with
  | some d, some st, some en =>
      let availableIds := (rooms.filter fun r => is_available store r.id d st en).map Room.id
      rooms.filter fun r => availableIds.contains r.id
  | _, _, _ => rooms

/-! ## Helper lemmas -/

/-- The overlap predicate is symmetric in the two intervals. -/
theorem overlaps_symm (s1 e1 s2 e2 : Nat) :
    overlaps s1 e1 s2 e2 = overlaps s2 e2 s1 e1 := by
  simp only [overlaps, gt_iff_lt]
  exact Bool.and_comm _ _

/-- `clean` succeeds exactly when all four checks pass, in source order. -/
theorem clean_ok_iff (store : List Booking) (today userId roomId date s e : Nat)
    (pk : Option Nat) :
    clean store today userId roomId date s e pk = .ok () ↔
      ¬ date < today ∧ ¬ e ≤ s ∧
      validate_room_availability store roomId date s e pk = true ∧
      validate_user_availability store userId date s e pk = true := by
  unfold clean
  by_cases h1 : date < today
  · simp [h1]
  · by_cases h2 : e ≤ s
    · simp [h1, h2]
    · by_cases h3 : validate_room_availability store roomId date s e pk
      · by_cases h4 : validate_user_availability store userId date s e pk
        · simp [h1, h2, h3, h4]
        · simp [h1, h2, h3, h4]
      · simp [h1, h2, h3]

/-- A create-mode room scan passes iff no stored row for the room and date
overlaps the candidate interval. -/
theorem validate_room_none_iff (store : List Booking) (roomId date s e : Nat) :
    validate_room_availability store roomId date s e none = true ↔
      ∀ b ∈ store, ¬ (b.roomId = roomId ∧ b.date = date ∧ b.startTime < e ∧ b.endTime > s) := by
  simp [validate_room_availability, roomOverlapQuery, List.isEmpty_iff,
    List.filter_eq_nil_iff]

/-- A create-mode user scan passes iff no stored row for the user and date
overlaps the candidate interval. -/
theorem validate_user_none_iff (store : List Booking) (userId date s e : Nat) :
    validate_user_availability store userId date s e none = true ↔
      ∀ b ∈ store, ¬ (b.userId = userId ∧ b.date = date ∧ b.startTime < e ∧ b.endTime > s) := by
  simp [validate_user_availability, userOverlapQuery, List.isEmpty_iff,
    List.filter_eq_nil_iff]

/-- An update-mode room scan passes iff no stored row other than the
excluded primary key overlaps on the room and date. -/
theorem validate_room_some_iff (store : List Booking) (roomId date s e p : Nat) :
    validate_room_availability store roomId date s e (some p) = true ↔
      ∀ b ∈ store, b.id ≠ p →
        ¬ (b.roomId = roomId ∧ b.date = date ∧ b.startTime < e ∧ b.endTime > s) := by
  simp [validate_room_availability, excludePk, roomOverlapQuery, List.isEmpty_iff,
    List.filter_eq_nil_iff, List.mem_filter]

/-- An update-mode user scan passes iff no stored row other than the
excluded primary key overlaps on the user and date. -/
theorem validate_user_some_iff (store : List Booking) (userId date s e p : Nat) :
    validate_user_availability store userId date s e (some p) = true ↔
      ∀ b ∈ store, b.id ≠ p →
        ¬ (b.userId = userId ∧ b.date = date ∧ b.startTime < e ∧ b.endTime > s) := by
  simp [validate_user_availability, excludePk, userOverlapQuery, List.isEmpty_iff,
    List.filter_eq_nil_iff, List.mem_filter]

/-- The overlap test is false exactly when the strict overlap condition
fails. -/
theorem overlaps_eq_false_iff (s1 e1 s2 e2 : Nat) :
    overlaps s1 e1 s2 e2 = false ↔ ¬ (s1 < e2 ∧ e1 > s2) := by
  simp [overlaps]

/-- Rows of an updated store are the new row or untouched rows with a
different primary key. -/
theorem mem_applyUpdate {store : List Booking} {b x : Booking}
    (hx : x ∈ applyUpdate store b) :
    x = b ∨ (x ∈ store ∧ x.id ≠ b.id) := by
  unfold applyUpdate at hx
  obtain ⟨y, hy, hxy⟩ := List.mem_map.mp hx
  by_cases h : y.id = b.id
  · left
    rw [← hxy]
    simp [h]
  · right
    have hxyeq : x = y := by rw [← hxy]; simp [h]
    subst hxyeq
    exact ⟨hy, h⟩

/-- Updating a row in place does not change the multiset of primary keys. -/
theorem applyUpdate_map_id (store : List Booking) (b : Booking) :
    (applyUpdate store b).map Booking.id = store.map Booking.id := by
  unfold applyUpdate
  rw [List.map_map]
  refine List.map_congr_left ?_
  intro x _
  by_cases h : x.id = b.id
  · simp [Function.comp, h]
  · simp [Function.comp, h]

/-- A successful create appends the validated row. -/
theorem submitCreate_ok_spec (store : List Booking) (today : Nat) (b : Booking)
    (hok : (submitCreate store today b).2 = none) :
    (submitCreate store today b).1 = store ++ [b] ∧
      clean store today b.userId b.roomId b.date b.startTime b.endTime none =
        .ok () := by
  unfold submitCreate at hok ⊢
  cases h : clean store today b.userId b.roomId b.date b.startTime b.endTime none with
  | error err => rw [h] at hok; simp at hok
  | ok v => cases v; simp

/-- A successful update replaces the validated row in place. -/
theorem submitUpdate_ok_spec (store : List Booking) (today : Nat) (b : Booking)
    (hok : (submitUpdate store today b).2 = none) :
    (submitUpdate store today b).1 = applyUpdate store b ∧
      clean store today b.userId b.roomId b.date b.startTime b.endTime
        (some b.id) = .ok () := by
  unfold submitUpdate at hok ⊢
  cases h : clean store today b.userId b.roomId b.date b.startTime b.endTime
      (some b.id) with
  | error err => rw [h] at hok; simp at hok
  | ok v => cases v; simp

/-! ## Claim theorems -/

/-- C2: for every room, date and pair of times `s < e`, the availability
check returns `true` iff no stored booking for that room on that date
satisfies `stored.start_time < e AND stored.end_time > s`. -/
theorem c2_is_available_iff (store : List Booking) (roomId date s e : Nat)
    (_h : s < e) :
    is_available store roomId date s e = true ↔
      ∀ b ∈ store, b.roomId = roomId → b.date = date →
        ¬ (b.startTime < e ∧ b.endTime > s) := by
  have h0 := validate_room_none_iff store roomId date s e
  simp only [validate_room_availability] at h0
  rw [show is_available store roomId date s e =
        (roomOverlapQuery store roomId date s e).isEmpty from rfl]
  rw [h0]
  constructor
  · intro hall b hb hroom hdate hover
    exact hall b hb ⟨hroom, hdate, hover.1, hover.2⟩
  · intro hall b hb ⟨hroom, hdate, hs, he⟩
    exact hall b hb hroom hdate ⟨hs, he⟩

/-- C2 witness: a concrete instantiation at a one-row store. -/
theorem c2_is_available_iff_witness :
    is_available [⟨1, 1, 2, 10, 600, 660⟩] 2 10 600 660 = true ↔
      ∀ b ∈ [(⟨1, 1, 2, 10, 600, 660⟩ : Booking)], b.roomId = 2 → b.date = 10 →
        ¬ (b.startTime < 660 ∧ b.endTime > 600) :=
  c2_is_available_iff [⟨1, 1, 2, 10, 600, 660⟩] 2 10 600 660 (by decide)

/-- C5: validation is fail-fast in source order: past date first, then
inverted interval, then room conflict, then user conflict; when several
rules are violated the first violated rule in this order is the error
reported by `clean`. -/
theorem c5_validation_order (store : List Booking)
    (today userId roomId date s e : Nat) (pk : Option Nat) :
    (date < today →
      clean store today userId roomId date s e pk = .error .pastDate) ∧
    (¬ date < today → e ≤ s →
      clean store today userId roomId date s e pk = .error .invalidInterval) ∧
    (¬ date < today → ¬ e ≤ s →
      validate_room_availability store roomId date s e pk = false →
      clean store today userId roomId date s e pk = .error .roomConflict) ∧
    (¬ date < today → ¬ e ≤ s →
      validate_room_availability store roomId date s e pk = true →
      validate_user_availability store userId date s e pk = false →
      clean store today userId roomId date s e pk = .error .userConflict) := by
  refine ⟨fun h1 => ?_, fun h1 h2 => ?_, fun h1 h2 h3 => ?_, fun h1 h2 h3 h4 => ?_⟩
  · simp [clean, h1]
  · simp [clean, h1, h2]
  · simp [clean, h1, h2, h3]
  · simp [clean, h1, h2, h3, h4]

/-- C5 witness: a candidate violating both the past-date and the interval
rule is reported as `pastDate`, the first rule in the order. -/
theorem c5_validation_order_witness :
    clean [] 5 1 1 0 10 7 none = .error .pastDate :=
  (c5_validation_order [] 5 1 1 0 10 7 none).1 (by decide)

/-- C8: whenever a create or an update is rejected, the stored set of
bookings is unchanged, and the operation persists exactly when `clean`
passes every check. -/
theorem c8_reject_leaves_store_unchanged (store : List Booking) (today : Nat)
    (b : Booking) :
    (∀ err, (submitCreate store today b).2 = some err →
      (submitCreate store today b).1 = store) ∧
    (∀ err, (submitUpdate store today b).2 = some err →
      (submitUpdate store today b).1 = store) ∧
    ((submitCreate store today b).2 = none ↔
      clean store today b.userId b.roomId b.date b.startTime b.endTime none = .ok ()) ∧
    ((submitUpdate store today b).2 = none ↔
      clean store today b.userId b.roomId b.date b.startTime b.endTime (some b.id) = .ok ()) := by
  unfold submitCreate submitUpdate
  cases h1 : clean store today b.userId b.roomId b.date b.startTime b.endTime none <;>
    cases h2 : clean store today b.userId b.roomId b.date b.startTime b.endTime (some b.id) <;>
      simp

/-- C8 witness: a past-dated create is rejected and the store is unchanged. -/
theorem c8_reject_leaves_store_unchanged_witness :
    (submitCreate [] 1 ⟨3, 1, 1, 0, 0, 1⟩).1 = [] :=
  (c8_reject_leaves_store_unchanged [] 1 ⟨3, 1, 1, 0, 0, 1⟩).1 .pastDate rfl

/-- C4: refutation of the claimed storage-level defense.  The only
constraint declared on the bookings table is `end_time > start_time`
(`Booking.Meta.constraints`).  Two fully overlapping rows for the same room
and date both satisfy every declared storage constraint, so the storage
layer does not reject the second committing overlap: the resulting store
violates the no-double-booking invariant while being storage-acceptable. -/
theorem c4_storage_accepts_second_overlap :
    satisfiesStorageConstraints ⟨1, 1, 5, 10, 600, 660⟩ = true ∧
    satisfiesStorageConstraints ⟨2, 2, 5, 10, 600, 660⟩ = true ∧
    overlaps 600 660 600 660 = true ∧
    ¬ StoreInv [⟨1, 1, 5, 10, 600, 660⟩, ⟨2, 2, 5, 10, 600, 660⟩] := by
  refine ⟨rfl, rfl, rfl, fun hinv => ?_⟩
  have h := (hinv.2 ⟨1, 1, 5, 10, 600, 660⟩ (by simp)
    ⟨2, 2, 5, 10, 600, 660⟩ (by simp) (by decide)).1 rfl rfl
  simp [overlaps] at h

/-- C10: when any of date, start time or end time is missing, the bulk
availability filter is the identity on the candidate room list. -/
theorem c10_missing_param_identity (rooms : List Room) (store : List Booking)
    (date s e : Option Nat) (h : date = none ∨ s = none ∨ e = none) :
    filter_availability rooms store date s e = rooms := by
  cases date <;> cases s <;> cases e <;> simp_all [filter_availability]

/-- C10 witness: missing end time leaves the candidate list unchanged. -/
theorem c10_missing_param_identity_witness :
    filter_availability [⟨1, 2, 4⟩] [] (some 10) (some 600) none = [⟨1, 2, 4⟩] :=
  c10_missing_param_identity [⟨1, 2, 4⟩] [] (some 10) (some 600) none (by simp)

/-- C3: validating an update of a stored booking `X` under `X`'s own
primary key excludes `X`'s row from both overlap scans, and a candidate
whose interval overlaps no stored row other than `X` itself passes
validation (given an in-range date and a well-ordered interval), whatever
its overlap with `X`'s own stored interval. -/
theorem c3_self_exclusion_on_update (store : List Booking) (today : Nat)
    (X c : Booking) (_hmem : X ∈ store) (hid : c.id = X.id)
    (hroom : ∀ b ∈ store, b.id ≠ X.id →
      ¬ (b.roomId = c.roomId ∧ b.date = c.date ∧
         b.startTime < c.endTime ∧ b.endTime > c.startTime))
    (huser : ∀ b ∈ store, b.id ≠ X.id →
      ¬ (b.userId = c.userId ∧ b.date = c.date ∧
         b.startTime < c.endTime ∧ b.endTime > c.startTime))
    (hdate : today ≤ c.date) (hord : c.startTime < c.endTime) :
    (∀ b ∈ excludePk
        (roomOverlapQuery store c.roomId c.date c.startTime c.endTime) c.id,
      b.id ≠ X.id) ∧
    (∀ b ∈ excludePk
        (userOverlapQuery store c.userId c.date c.startTime c.endTime) c.id,
      b.id ≠ X.id) ∧
    clean store today c.userId c.roomId c.date c.startTime c.endTime
      (some c.id) = .ok () := by
  have hexcl : ∀ q : List Booking, ∀ b ∈ excludePk q c.id, b.id ≠ X.id := by
    intro q b hb
    rw [hid] at hb
    have := (List.mem_filter.mp hb).2
    simpa using this
  refine ⟨fun b hb => hexcl _ b hb, fun b hb => hexcl _ b hb, ?_⟩
  rw [clean_ok_iff]
  refine ⟨by omega, by omega, ?_, ?_⟩
  · rw [validate_room_some_iff]
    intro b hb hbid
    rw [hid] at hbid
    exact hroom b hb hbid
  · rw [validate_user_some_iff]
    intro b hb hbid
    rw [hid] at hbid
    exact huser b hb hbid

/-- C3 witness: re-submitting a stored booking with its own exact time
range is accepted and its row is excluded from both scans. -/
theorem c3_self_exclusion_on_update_witness :
    (∀ b ∈ excludePk
        (roomOverlapQuery [⟨4, 7, 2, 10, 600, 660⟩] 2 10 600 660) 4,
      b.id ≠ 4) ∧
    (∀ b ∈ excludePk
        (userOverlapQuery [⟨4, 7, 2, 10, 600, 660⟩] 7 10 600 660) 4,
      b.id ≠ 4) ∧
    clean [⟨4, 7, 2, 10, 600, 660⟩] 10 7 2 10 600 660 (some 4) = .ok () :=
  c3_self_exclusion_on_update [⟨4, 7, 2, 10, 600, 660⟩] 10
    ⟨4, 7, 2, 10, 600, 660⟩ ⟨4, 7, 2, 10, 600, 660⟩ (by simp) rfl
    (by decide) (by decide) (by decide) (by decide)

/-- C6: a candidate that overlaps a stored booking of the same user on the
same date is rejected as a user conflict even when it requests a different
room, provided it passes the earlier checks (date in range, ordered
interval, requested room free). -/
theorem c6_user_cross_room_conflict (store : List Booking) (today : Nat)
    (stored c : Booking) (hmem : stored ∈ store)
    (huser : stored.userId = c.userId) (hdate2 : stored.date = c.date)
    (_hroomdiff : stored.roomId ≠ c.roomId)
    (hover1 : stored.startTime < c.endTime) (hover2 : stored.endTime > c.startTime)
    (hdate : today ≤ c.date) (hord : c.startTime < c.endTime)
    (hroomfree : validate_room_availability store c.roomId c.date
      c.startTime c.endTime none = true) :
    clean store today c.userId c.roomId c.date c.startTime c.endTime none =
      .error .userConflict := by
  have h1 : ¬ c.date < today := by omega
  have h2 : ¬ c.endTime ≤ c.startTime := by omega
  have h4 : validate_user_availability store c.userId c.date c.startTime
      c.endTime none = false := by
    rcases Bool.eq_false_or_eq_true
      (validate_user_availability store c.userId c.date c.startTime c.endTime none) with h | h
    · exact absurd ⟨huser, hdate2, hover1, hover2⟩
        ((validate_user_none_iff store c.userId c.date c.startTime c.endTime).mp h
          stored hmem)
    · exact h
  simp [clean, h1, h2, hroomfree, h4]

/-- C6 witness: the spec scenario — user 7 holds room 1 from 600 to 660;
the same user asking for room 2 from 630 to 690 gets a user conflict. -/
theorem c6_user_cross_room_conflict_witness :
    clean [⟨4, 7, 1, 10, 600, 660⟩] 10 7 2 10 630 690 none =
      .error .userConflict :=
  c6_user_cross_room_conflict [⟨4, 7, 1, 10, 600, 660⟩] 10
    ⟨4, 7, 1, 10, 600, 660⟩ ⟨5, 7, 2, 10, 630, 690⟩ (by simp)
    rfl rfl (by decide) (by decide) (by decide) (by decide) (by decide)
    (by decide)

/-- C7: boundary touching never conflicts: a stored booking ending exactly
at the candidate's start (and symmetrically one starting exactly at the
candidate's end), same room, same date, even same user, leaves the room
available and the candidate accepted. -/
theorem c7_boundary_non_conflict (today roomId userId d uid bid s1 T e2 : Nat)
    (hd : today ≤ d) (h1 : s1 < T) (h2 : T < e2) :
    (is_available [⟨bid, uid, roomId, d, s1, T⟩] roomId d T e2 = true ∧
      clean [⟨bid, uid, roomId, d, s1, T⟩] today userId roomId d T e2 none =
        .ok ()) ∧
    (is_available [⟨bid, uid, roomId, d, T, e2⟩] roomId d s1 T = true ∧
      clean [⟨bid, uid, roomId, d, T, e2⟩] today userId roomId d s1 T none =
        .ok ()) := by
  have havailA : is_available [⟨bid, uid, roomId, d, s1, T⟩] roomId d T e2 = true := by
    simp [is_available, roomOverlapQuery, List.isEmpty_iff, List.filter_eq_nil_iff]
  have havailB : is_available [⟨bid, uid, roomId, d, T, e2⟩] roomId d s1 T = true := by
    simp [is_available, roomOverlapQuery, List.isEmpty_iff, List.filter_eq_nil_iff]
  refine ⟨⟨havailA, ?_⟩, ⟨havailB, ?_⟩⟩
  · rw [clean_ok_iff]
    refine ⟨by omega, by omega, havailA, ?_⟩
    rw [validate_user_none_iff]
    intro b hb
    simp at hb
    subst hb
    simp
  · rw [clean_ok_iff]
    refine ⟨by omega, by omega, havailB, ?_⟩
    rw [validate_user_none_iff]
    intro b hb
    simp at hb
    subst hb
    simp

/-- C7 witness: existing 10:00-11:00 booking, candidate 11:00-12:00 (and
symmetrically), in minutes since midnight. -/
theorem c7_boundary_non_conflict_witness :
    (is_available [⟨1, 7, 2, 10, 600, 660⟩] 2 10 660 720 = true ∧
      clean [⟨1, 7, 2, 10, 600, 660⟩] 10 7 2 10 660 720 none = .ok ()) ∧
    (is_available [⟨1, 7, 2, 10, 660, 720⟩] 2 10 600 660 = true ∧
      clean [⟨1, 7, 2, 10, 660, 720⟩] 10 7 2 10 600 660 none = .ok ()) :=
  c7_boundary_non_conflict 10 2 7 10 7 1 600 660 720 (by decide) (by decide)
    (by decide)

/-- C9: with all three parameters supplied and pairwise distinct room ids
(primary keys), the bulk availability filter returns exactly the candidate
rooms whose availability predicate is true. -/
theorem c9_filter_availability_iff (rooms : List Room) (store : List Booking)
    (d st en : Nat) (hnodup : (rooms.map Room.id).Nodup) (r : Room) :
    r ∈ filter_availability rooms store (some d) (some st) (some en) ↔
      r ∈ rooms ∧ is_available store r.id d st en = true := by
  unfold filter_availability
  constructor
  · intro hr
    obtain ⟨hr1, hr2⟩ := List.mem_filter.mp hr
    rw [List.contains_iff_exists_mem_beq] at hr2
    obtain ⟨y, hy, hbeq⟩ := hr2
    obtain ⟨x, hx, hxid⟩ := List.mem_map.mp hy
    obtain ⟨hx1, hx2⟩ := List.mem_filter.mp hx
    have hyr : r.id = y := by simpa using hbeq
    have hxr : x = r := by
      refine List.inj_on_of_nodup_map hnodup hx1 hr1 ?_
      rw [hxid]
      exact hyr.symm
    subst hxr
    exact ⟨hx1, hx2⟩
  · intro ⟨hr1, hr2⟩
    refine List.mem_filter.mpr ⟨hr1, ?_⟩
    rw [List.contains_iff_exists_mem_beq]
    refine ⟨r.id, List.mem_map.mpr ⟨r, List.mem_filter.mpr ⟨hr1, hr2⟩, rfl⟩, ?_⟩
    simp

/-- C9 witness: two rooms, one booked solid, one free. -/
theorem c9_filter_availability_iff_witness :
    (⟨2, 1, 4⟩ : Room) ∈ filter_availability [⟨1, 1, 4⟩, ⟨2, 1, 4⟩]
        [⟨1, 7, 1, 10, 600, 660⟩] (some 10) (some 630) (some 690) ↔
      (⟨2, 1, 4⟩ : Room) ∈ [(⟨1, 1, 4⟩ : Room), ⟨2, 1, 4⟩] ∧
        is_available [⟨1, 7, 1, 10, 600, 660⟩] 2 10 630 690 = true :=
  c9_filter_availability_iff [⟨1, 1, 4⟩, ⟨2, 1, 4⟩] [⟨1, 7, 1, 10, 600, 660⟩]
    10 630 690 (by decide) ⟨2, 1, 4⟩

/-- C1: every store reachable by sequentially executed validated creates,
validated updates and deletes has pairwise-distinct primary keys, and no
two distinct rows with the same room and date — or the same user and date —
have overlapping intervals, where `[s1,e1)` and `[s2,e2)` overlap iff
`s1 < e2 AND e1 > s2`. -/
theorem c1_reachable_no_double_booking (store : List Booking)
    (h : Reachable store) : StoreInv store := by
  induction h with
  | empty =>
      refine ⟨List.nodup_nil, ?_⟩
      intro a ha
      simp at ha
  | create store today b _ hfresh hok ih =>
      obtain ⟨heq, hclean⟩ := submitCreate_ok_spec store today b hok
      rw [heq]
      obtain ⟨hnd, hpair⟩ := ih
      obtain ⟨_, _, hroomv, huserv⟩ := (clean_ok_iff _ _ _ _ _ _ _ _).mp hclean
      have hroom :=
        (validate_room_none_iff store b.roomId b.date b.startTime b.endTime).mp hroomv
      have huser :=
        (validate_user_none_iff store b.userId b.date b.startTime b.endTime).mp huserv
      constructor
      · rw [List.map_append, List.nodup_append]
        refine ⟨hnd, List.nodup_singleton _, ?_⟩
        intro a haid hamem
        simp at hamem
        subst hamem
        exact hfresh haid
      · intro x hx y hy hne
        rcases List.mem_append.mp hx with hx1 | hx1
        · rcases List.mem_append.mp hy with hy1 | hy1
          · exact hpair x hx1 y hy1 hne
          · have hyb : y = b := by simpa using hy1
            subst hyb
            constructor
            · intro hr hd2
              rw [overlaps_eq_false_iff]
              intro ⟨ho1, ho2⟩
              exact hroom x hx1 ⟨hr, hd2, ho1, ho2⟩
            · intro hu hd2
              rw [overlaps_eq_false_iff]
              intro ⟨ho1, ho2⟩
              exact huser x hx1 ⟨hu, hd2, ho1, ho2⟩
        · have hxb : x = b := by simpa using hx1
          subst hxb
          rcases List.mem_append.mp hy with hy1 | hy1
          · constructor
            · intro hr hd2
              rw [overlaps_symm, overlaps_eq_false_iff]
              intro ⟨ho1, ho2⟩
              exact hroom y hy1 ⟨hr.symm, hd2.symm, ho1, ho2⟩
            · intro hu hd2
              rw [overlaps_symm, overlaps_eq_false_iff]
              intro ⟨ho1, ho2⟩
              exact huser y hy1 ⟨hu.symm, hd2.symm, ho1, ho2⟩
          · have hyb : y = x := by simpa using hy1
            exact absurd hyb.symm hne
  | update store today b _ hok ih =>
      obtain ⟨heq, hclean⟩ := submitUpdate_ok_spec store today b hok
      rw [heq]
      obtain ⟨hnd, hpair⟩ := ih
      obtain ⟨_, _, hroomv, huserv⟩ := (clean_ok_iff _ _ _ _ _ _ _ _).mp hclean
      have hroom :=
        (validate_room_some_iff store b.roomId b.date b.startTime b.endTime b.id).mp hroomv
      have huser :=
        (validate_user_some_iff store b.userId b.date b.startTime b.endTime b.id).mp huserv
      constructor
      · rw [applyUpdate_map_id]
        exact hnd
      · intro x hx y hy hne
        rcases mem_applyUpdate hx with hxb | ⟨hx1, hx2⟩ <;>
          rcases mem_applyUpdate hy with hyb | ⟨hy1, hy2⟩
        · exact absurd (hxb.trans hyb.symm) hne
        · subst hxb
          constructor
          · intro hr hd2
            rw [overlaps_symm, overlaps_eq_false_iff]
            intro ⟨ho1, ho2⟩
            exact hroom y hy1 hy2 ⟨hr.symm, hd2.symm, ho1, ho2⟩
          · intro hu hd2
            rw [overlaps_symm, overlaps_eq_false_iff]
            intro ⟨ho1, ho2⟩
            exact huser y hy1 hy2 ⟨hu.symm, hd2.symm, ho1, ho2⟩
        · subst hyb
          constructor
          · intro hr hd2
            rw [overlaps_eq_false_iff]
            intro ⟨ho1, ho2⟩
            exact hroom x hx1 hx2 ⟨hr, hd2, ho1, ho2⟩
          · intro hu hd2
            rw [overlaps_eq_false_iff]
            intro ⟨ho1, ho2⟩
            exact huser x hx1 hx2 ⟨hu, hd2, ho1, ho2⟩
        · exact hpair x hx1 y hy1 hne
  | delete store bid _ ih =>
      obtain ⟨hnd, hpair⟩ := ih
      constructor
      · unfold deleteBooking
        exact ((List.filter_sublist store).map Booking.id).nodup hnd
      · intro x hx y hy hne
        exact hpair x (List.mem_of_mem_filter hx) y (List.mem_of_mem_filter hy) hne

/-- C1 witness: the store reached by one validated create satisfies the
invariant. -/
theorem c1_reachable_no_double_booking_witness :
    StoreInv (submitCreate [] 0 ⟨1, 7, 2, 10, 600, 660⟩).1 :=
  c1_reachable_no_double_booking _
    (Reachable.create [] 0 ⟨1, 7, 2, 10, 600, 660⟩ Reachable.empty (by simp)
      (by decide))

end RoomBooking
